import Mathlib

/-!
# gravity-snapshot: particle field, classifier and progressive driver

A shallow embedding of `gravity-snapshot.cpp`.

* `float` values are exact rationals (`ℚ`); the results below are statements
  of exact arithmetic, not of IEEE rounding.
* `int` values are `Int`; a loop `for (i = 0; i < n; ++i)` runs `n.toNat` times.
* The process-wide globals (`width`, `height`, `gravity`, `triangle_height`,
  `dt`, `masses`, `color`) are passed explicitly.
* `hypotf` comes from the C library; it is a parameter `hypot` of the
  classifier.  `hypotQ` is an executable instance, exact whenever the distance
  is rational.
* A float division by zero yields an infinity or a NaN, and converting that to
  `char` is undefined: such a value is `none`.
-/

namespace GravitySnapshot

/-! ## Masses and layouts -/

/-- One row `masses[m]` of the global `float masses[3][2]`: `(masses[m][0], masses[m][1])`. -/
abbrev Mass := ℚ × ℚ

/-- The global array `float masses[3][2]`. -/
abbrev Masses := Fin 3 → Mass

/-- The enumeration `Mass_Layout`. -/
inductive Mass_Layout where
  | TRIANGLE
  | LINE
  | RANDOM
  deriving DecidableEq, Repr

/-- The function `init_masses(l)`.  It reads the globals `width`, `height` and
`triangle_height` and overwrites the global `masses`, given here as the last
argument.  The six draws of the `RANDOM` case (`rw(g)` three times, then
`rh(g)` three times) are supplied by `draw`, in call order. -/
def init_masses (l : Mass_Layout) (width height triangle_height : Int)
    (draw : Fin 6 → Int) (_masses : Masses) : Masses :=
  let mid_height : ℚ := (height : ℚ) / 2
  let mid_width : ℚ := (width : ℚ) / 2
  let third : ℚ := (triangle_height : ℚ) / 3
  let half : ℚ := (triangle_height : ℚ) / 2
  match l with
  | .TRIANGLE => fun m =>
      match m with
      | 0 => (mid_width, mid_height - 2 * third)
      | 1 => (mid_width - half, mid_height + third)
      | 2 => (mid_width + half, mid_height + third)
  | .LINE => fun m =>
      match m with
      | 0 => (mid_width, mid_height)
      | 1 => (mid_width - half, mid_height)
      | 2 => (mid_width + half, mid_height)
  | .RANDOM => fun m =>
      match m with
      | 0 => ((draw 0 : ℚ), (draw 3 : ℚ))
      | 1 => ((draw 1 : ℚ), (draw 4 : ℚ))
      | 2 => ((draw 2 : ℚ), (draw 5 : ℚ))

/-! ## Particles -/

/-- The struct `Point`: position, velocity, acceleration. -/
structure Point where
  x : ℚ
  y : ℚ
  xv : ℚ
  yv : ℚ
  xa : ℚ
  ya : ℚ
  deriving DecidableEq, Repr

/-- The method `Point::reset(xpos, ypos)`. -/
def Point.reset (_p : Point) (xpos ypos : ℚ) : Point :=
  { x := xpos, y := ypos, xv := 0, yv := 0, xa := 0, ya := 0 }

/-- The denominator `d2 + 5` of the force of mass `m` on a particle at `(x, y)`. -/
def forceDenom (x y : ℚ) (m : Mass) : ℚ :=
  let dx := m.1 - x
  let dy := m.2 - y
  let d2 := (dx * dx) + (dy * dy)
  d2 + 5

/-- One pass of the loop body of `Point::update` for mass `m`: the pair
`(dx * f, dy * f)` that is added to `(xacc, yacc)`. -/
def massTerm (gravity x y : ℚ) (m : Mass) : ℚ × ℚ :=
  let dx := m.1 - x
  let dy := m.2 - y
  let f := gravity / forceDenom x y m
  (dx * f, dy * f)

/-- The loop `for (auto m : masses)` of `Point::update`, from `(xacc, yacc)`. -/
def accumulate (gravity x y : ℚ) (masses : List Mass) (acc : ℚ × ℚ) : ℚ × ℚ :=
  masses.foldl (fun a m => (a.1 + (massTerm gravity x y m).1, a.2 + (massTerm gravity x y m).2)) acc

/-- The method `Point::update()`, over the masses it iterates. -/
def Point.update (dt gravity : ℚ) (masses : List Mass) (p : Point) : Point :=
  let x := p.x + p.xv * dt
  let y := p.y + p.yv * dt
  let xv := p.xv + p.xa * dt
  let yv := p.yv + p.ya * dt
  let acc := accumulate gravity x y masses (0, 0)
  { x := x, y := y, xv := xv, yv := yv, xa := acc.1, ya := acc.2 }

/-- The rows of the global array, in the order `for (auto m : masses)` visits them. -/
def Masses.rows (masses : Masses) : List Mass := [masses 0, masses 1, masses 2]

/-! ## The weighted-nearest classifier -/

/-- An executable `hypotf` on rationals: the rational square root of
`a * a + b * b`, exact whenever that number is the square of a rational. -/
def hypotQ (a b : ℚ) : ℚ := Rat.sqrt (a * a + b * b)

/-- The locals of `calc_weighted_closest` across its first loop.  `dist` is
`none` while it still holds `INFINITY`. -/
structure Scan where
  c : Fin 3
  total : ℚ
  dist : Option ℚ
  rgb : Fin 3 → ℚ

/-- The test `d < dist`, with `none` for `INFINITY`. -/
def ltDist (d : ℚ) : Option ℚ → Bool
  | none => true
  | some x => decide (d < x)

/-- The body of the first loop of `calc_weighted_closest` for index `m`. -/
def scanStep (hypot : ℚ → ℚ → ℚ) (p : Point) (masses : Masses) (s : Scan) (m : Fin 3) : Scan :=
  let d := hypot (p.x - (masses m).1) (p.y - (masses m).2)
  let s1 : Scan :=
    if ltDist d s.dist then { s with c := m, dist := some d }
    else { s with total := s.total + d }
  { s1 with rgb := Function.update s1.rgb m d }

/-- The first loop of `calc_weighted_closest`, `for (m = 0; m < nmasses; ++m)`
with `nmasses = 3`, from `c = 0`, `total = 0`, `dist = INFINITY`.  The array
`rgb` is written at every index before it is read. -/
def scan (hypot : ℚ → ℚ → ℚ) (p : Point) (masses : Masses) : Scan :=
  [(0 : Fin 3), 1, 2].foldl (scanStep hypot p masses)
    { c := 0, total := 0, dist := none, rgb := fun _ => 0 }

/-- A float quotient `a / b`; `none` when `b` is zero. -/
def fdiv (a b : ℚ) : Option ℚ := if b = 0 then none else some (a / b)

/-- The value assigned to `color[i]` in the second loop, before it is stored
as a byte: `255` for `i == c`, otherwise `255 * (total - rgb[i]) / total`. -/
def channelValue (s : Scan) (i : Fin 3) : Option ℚ :=
  if i = s.c then some 255 else fdiv (255 * (s.total - s.rgb i)) s.total

/-- Truncation toward zero, the float-to-integer conversion of C. -/
def truncate (v : ℚ) : Int := if 0 ≤ v then ⌊v⌋ else ⌈v⌉

/-- The conversion `(char) v` followed by the store into an `unsigned char`:
truncation toward zero, kept modulo `2 ^ 8`. -/
def toByte (v : ℚ) : Nat := (truncate v % 256).toNat

/-- The global `unsigned char color[3]`; a channel is `none` once an undefined
value has been stored in it. -/
abbrev Color := Fin 3 → Option Nat

/-- The function `calc_weighted_closest(p)`: the contents of `color` after it. -/
def calc_weighted_closest (hypot : ℚ → ℚ → ℚ) (p : Point) (masses : Masses) : Color :=
  fun i => (channelValue (scan hypot p masses) i).map toByte

/-! ## The frame renderer -/

/-- The globals read by `render_frame` and `Point::update`. -/
structure Globals where
  width : Int
  height : Int
  gravity : ℚ
  dt : ℚ
  masses : Masses

/-- A three-channel `CImg<unsigned char>`: its size and its pixels `pix x y`. -/
@[ext]
structure Image where
  w : Nat
  h : Nat
  pix : Nat → Nat → Color

/-- The call `img->draw_point(x, y, 0, color)` at full opacity: the pixel is
overwritten when it lies inside the image, and nothing happens otherwise. -/
def Image.draw_point (img : Image) (x y : Nat) (color : Color) : Image :=
  if x < img.w ∧ y < img.h then
    { img with pix := Function.update img.pix x (Function.update (img.pix x) y color) }
  else img

/-- The memory `render_frame` works on: the grid `p[y][x]`, the image `*img`
and the global `color`. -/
@[ext]
structure RenderState where
  p : Nat → Nat → Point
  img : Image
  color : Color

/-- The body of the two outer loops of `render_frame` at cell `(y, x)`:
`steps` updates of `p[y][x]`, then classification, then `draw_point`. -/
def render_cell (hypot : ℚ → ℚ → ℚ) (g : Globals) (steps : Int) (y x : Nat)
    (s : RenderState) : RenderState :=
  let q := (Point.update g.dt g.gravity g.masses.rows)^[steps.toNat] (s.p y x)
  let color := calc_weighted_closest hypot q g.masses
  { p := Function.update s.p y (Function.update (s.p y) x q),
    img := s.img.draw_point x y color,
    color := color }

/-- The loop `for (x = 0; x < width; ++x)` of `render_frame`, in row `y`. -/
def render_row (hypot : ℚ → ℚ → ℚ) (g : Globals) (steps : Int) (y : Nat)
    (s : RenderState) : RenderState :=
  (List.range g.width.toNat).foldl (fun s x => render_cell hypot g steps y x s) s

/-- The function `render_frame(p, img, steps)`. -/
def render_frame (hypot : ℚ → ℚ → ℚ) (g : Globals) (steps : Int)
    (s : RenderState) : RenderState :=
  (List.range g.height.toNat).foldl (fun s y => render_row hypot g steps y s) s

/-! ## The driver in `main` -/

/-- How the frame loops of `main` end: `complete` after "Frame Rendering
Complete", `window_closed` at `exit(1)`, `running` when the unbounded loop
still runs after the given number of rounds. -/
inductive Outcome where
  | complete
  | window_closed
  | running
  deriving DecidableEq, Repr

/-- A run of the driver: the memory, the buffers handed to `visu.display`
(and to `visu.save` with the same index), oldest first, and the outcome. -/
structure Run where
  state : RenderState
  emitted : List (Nat × Image)
  outcome : Outcome

/-- The loop `for (i = 0; i < frames; i += 1)` of `main`, with `n` rounds left
at index `i`.  `closed i` is the answer of `main_disp.is_closed()` in round `i`. -/
def frame_loop (hypot : ℚ → ℚ → ℚ) (g : Globals) (step : Int) (closed : Nat → Bool) :
    Nat → Nat → RenderState → List (Nat × Image) → Run
  | 0, _, s, out => { state := s, emitted := out, outcome := .complete }
  | n + 1, i, s, out =>
    if closed i then { state := s, emitted := out, outcome := .window_closed }
    else
      let s1 := render_frame hypot g step s
      frame_loop hypot g step closed n (i + 1) s1 (out ++ [(i, s1.img)])

/-- The loop `while (true)` of `main` for `frames == 0`, cut after `fuel` rounds. -/
def endless_loop (hypot : ℚ → ℚ → ℚ) (g : Globals) (step : Int) (closed : Nat → Bool) :
    Nat → Nat → RenderState → List (Nat × Image) → Run
  | 0, _, s, out => { state := s, emitted := out, outcome := .running }
  | fuel + 1, i, s, out =>
    if closed i then { state := s, emitted := out, outcome := .window_closed }
    else
      let s1 := render_frame hypot g step s
      endless_loop hypot g step closed fuel (i + 1) s1 (out ++ [(i, s1.img)])

/-- The rendering part of `main`, from the grid after its `reset` loop:
`render_frame(p, &visu, iterations)`, then one of the two frame loops. -/
def driver (hypot : ℚ → ℚ → ℚ) (g : Globals) (iterations step frames : Int)
    (closed : Nat → Bool) (fuel : Nat) (s : RenderState) : Run :=
  let s0 := render_frame hypot g iterations s
  if frames = 0 then endless_loop hypot g step closed fuel 0 s0 []
  else frame_loop hypot g step closed frames.toNat 0 s0 []

/-- The memory of `main` before its first `render_frame`: `p[i][j].reset(j, i)`,
the image `visu(width, height, 1, 3, 0)` and the global `color = {0, 0, 0}`. -/
def initial_state (width height : Int) : RenderState :=
  { p := fun i j => { x := (j : ℚ), y := (i : ℚ), xv := 0, yv := 0, xa := 0, ya := 0 },
    img := { w := width.toNat, h := height.toNat, pix := fun _ _ _ => some 0 },
    color := fun _ => some 0 }

/-! ## Quantities named by the specification, and sample inputs -/

/-- The distance `d_i` that `calc_weighted_closest` computes for mass `i`. -/
def dists (hypot : ℚ → ℚ → ℚ) (p : Point) (masses : Masses) (i : Fin 3) : ℚ :=
  hypot (p.x - (masses i).1) (p.y - (masses i).2)

/-- The total as the specification words it: the sum of `d i` over all `i ≠ c`. -/
def spec_total (d : Fin 3 → ℚ) (c : Fin 3) : ℚ :=
  ∑ i in Finset.univ.filter (fun i => i ≠ c), d i

/-- A particle at rest at `(x, y)`. -/
def particle_at (x y : ℚ) : Point := { x := x, y := y, xv := 0, yv := 0, xa := 0, ya := 0 }

/-- Three masses on the horizontal axis, at `(a, 0)`, `(b, 0)` and `(c, 0)`. -/
def axis_masses (a b c : ℚ) : Masses := fun m =>
  match m with
  | 0 => (a, 0)
  | 1 => (b, 0)
  | 2 => (c, 0)


/-- The squared magnitude of a contribution `(ax, ay)` to the acceleration. -/
def magSq (a : ℚ × ℚ) : ℚ := a.1 * a.1 + a.2 * a.2

/-- The vertical extent `max y - min y` of three masses. -/
def vertical_extent (M : Masses) : ℚ :=
  max (max (M 0).2 (M 1).2) (M 2).2 - min (min (M 0).2 (M 1).2) (M 2).2

/-- The squared Euclidean distance between two masses. -/
def sqDist (a b : Mass) : ℚ := (a.1 - b.1) ^ 2 + (a.2 - b.2) ^ 2

/-- A small configuration: a 2 by 2 canvas with masses at `(0,0)`, `(1,0)`, `(2,0)`. -/
def sample_globals : Globals :=
  { width := 2, height := 2, gravity := 30, dt := 1 / 10, masses := axis_masses 0 1 2 }

/-! ## The classifier: auxiliary facts -/

lemma hypotQ_axis (a : ℚ) : hypotQ a 0 = |a| := by
  simp [hypotQ, Rat.sqrt_eq]

lemma dists_axis (x a b c : ℚ) (i : Fin 3) :
    dists hypotQ (particle_at x 0) (axis_masses a b c) i =
      |x - (![a, b, c] : Fin 3 → ℚ) i| := by
  fin_cases i <;> simp [dists, particle_at, axis_masses, hypotQ_axis]

lemma scanStep_rgb (hypot : ℚ → ℚ → ℚ) (p : Point) (masses : Masses) (s : Scan) (m : Fin 3) :
    (scanStep hypot p masses s m).rgb = Function.update s.rgb m (dists hypot p masses m) := by
  unfold scanStep dists
  by_cases h : ltDist (hypot (p.x - (masses m).1) (p.y - (masses m).2)) s.dist = true <;> simp [h]

lemma scan_rgb (hypot : ℚ → ℚ → ℚ) (p : Point) (masses : Masses) (i : Fin 3) :
    (scan hypot p masses).rgb i = dists hypot p masses i := by
  fin_cases i <;> simp [scan, scanStep_rgb, Function.update]

lemma scan_c (hypot : ℚ → ℚ → ℚ) (p : Point) (masses : Masses) :
    (scan hypot p masses).c =
      if dists hypot p masses 1 < dists hypot p masses 0 then
        (if dists hypot p masses 2 < dists hypot p masses 1 then 2 else 1)
      else (if dists hypot p masses 2 < dists hypot p masses 0 then 2 else 0) := by
  simp only [scan, List.foldl, scanStep, ltDist, dists]
  split_ifs <;> simp_all

lemma scan_total (hypot : ℚ → ℚ → ℚ) (p : Point) (masses : Masses) :
    (scan hypot p masses).total =
      if dists hypot p masses 1 < dists hypot p masses 0 then
        (if dists hypot p masses 2 < dists hypot p masses 1 then 0
          else dists hypot p masses 2)
      else (if dists hypot p masses 2 < dists hypot p masses 0 then dists hypot p masses 1
          else dists hypot p masses 1 + dists hypot p masses 2) := by
  simp only [scan, List.foldl, scanStep, ltDist, dists]
  split_ifs <;> simp_all

/-- The four ways the first loop can run, by which masses displace the running minimum. -/
lemma scan_cases (hypot : ℚ → ℚ → ℚ) (p : Point) (masses : Masses) :
    (dists hypot p masses 0 ≤ dists hypot p masses 1 ∧
        dists hypot p masses 0 ≤ dists hypot p masses 2 ∧
        (scan hypot p masses).c = 0 ∧
        (scan hypot p masses).total = dists hypot p masses 1 + dists hypot p masses 2) ∨
    (dists hypot p masses 1 < dists hypot p masses 0 ∧
        dists hypot p masses 1 ≤ dists hypot p masses 2 ∧
        (scan hypot p masses).c = 1 ∧
        (scan hypot p masses).total = dists hypot p masses 2) ∨
    (dists hypot p masses 0 ≤ dists hypot p masses 1 ∧
        dists hypot p masses 2 < dists hypot p masses 0 ∧
        (scan hypot p masses).c = 2 ∧
        (scan hypot p masses).total = dists hypot p masses 1) ∨
    (dists hypot p masses 1 < dists hypot p masses 0 ∧
        dists hypot p masses 2 < dists hypot p masses 1 ∧
        (scan hypot p masses).c = 2 ∧
        (scan hypot p masses).total = 0) := by
  rw [scan_c, scan_total]
  by_cases h10 : dists hypot p masses 1 < dists hypot p masses 0
  · by_cases h21 : dists hypot p masses 2 < dists hypot p masses 1
    · right; right; right; simp [h10, h21]
    · right; left; simp [h10, h21, not_lt.mp h21]
  · by_cases h20 : dists hypot p masses 2 < dists hypot p masses 0
    · right; right; left; simp [h10, h20, not_lt.mp h10]
    · left; simp [h10, h20, not_lt.mp h10, not_lt.mp h20]

lemma truncate_eq_floor (v : ℚ) (h : 0 ≤ v) : truncate v = ⌊v⌋ := by
  simp [truncate, h]

lemma toByte_eq_floor (v : ℚ) (h0 : 0 ≤ v) (h1 : v < 256) : toByte v = ⌊v⌋.toNat := by
  unfold toByte
  rw [truncate_eq_floor v h0]
  have hf0 : 0 ≤ ⌊v⌋ := Int.floor_nonneg.mpr h0
  have hf1 : ⌊v⌋ < 256 := by
    rw [Int.floor_lt]
    exact_mod_cast h1
  rw [Int.emod_eq_of_lt hf0 hf1]

lemma toByte_255 : toByte 255 = 255 := by
  rw [toByte_eq_floor 255 (by norm_num) (by norm_num)]
  have : ⌊(255 : ℚ)⌋ = 255 := by
    rw [Int.floor_eq_iff]; norm_num
  rw [this]; rfl


/-! ## The classifier: results -/

lemma spec_total_zero (d : Fin 3 → ℚ) : spec_total d 0 = d 1 + d 2 := by
  simp [spec_total, Finset.sum_filter, Fin.sum_univ_three]

lemma spec_total_one (d : Fin 3 → ℚ) : spec_total d 1 = d 0 + d 2 := by
  simp [spec_total, Finset.sum_filter, Fin.sum_univ_three]

lemma spec_total_two (d : Fin 3 → ℚ) : spec_total d 2 = d 0 + d 1 := by
  simp [spec_total, Finset.sum_filter, Fin.sum_univ_three]

lemma calc_weighted_closest_c (hypot : ℚ → ℚ → ℚ) (p : Point) (masses : Masses) :
    calc_weighted_closest hypot p masses (scan hypot p masses).c = some 255 := by
  simp [calc_weighted_closest, channelValue, toByte_255]

/-- The total of the classifier is the sum of the distances to the masses
other than `c` exactly when mass 0 is a nearest mass. -/
lemma scan_total_eq_spec_total_iff (hypot : ℚ → ℚ → ℚ) (p : Point) (masses : Masses)
    (hnn : ∀ a b, 0 ≤ hypot a b) :
    (scan hypot p masses).total = spec_total (dists hypot p masses) (scan hypot p masses).c ↔
      (dists hypot p masses 0 ≤ dists hypot p masses 1 ∧
        dists hypot p masses 0 ≤ dists hypot p masses 2) := by
  have h0 : 0 ≤ dists hypot p masses 0 := hnn _ _
  have h1 : 0 ≤ dists hypot p masses 1 := hnn _ _
  have h2 : 0 ≤ dists hypot p masses 2 := hnn _ _
  rcases scan_cases hypot p masses with ⟨a, b, hc, ht⟩ | ⟨a, b, hc, ht⟩ | ⟨a, b, hc, ht⟩ |
    ⟨a, b, hc, ht⟩
  · rw [hc, ht, spec_total_zero]
    exact ⟨fun _ => ⟨a, b⟩, fun _ => rfl⟩
  · rw [hc, ht, spec_total_one]
    constructor
    · intro h; linarith
    · intro h; linarith [h.1]
  · rw [hc, ht, spec_total_two]
    constructor
    · intro h; linarith
    · intro h; linarith [h.2]
  · rw [hc, ht, spec_total_two]
    constructor
    · intro h; linarith
    · intro h; linarith [h.1]

/-- C2: with the particle at the origin and the masses at distances 3, 2 and 1,
in this order, the classifier ends with `c = 2` and `total = 0`, while the sum
of the distances to the masses other than `c` is 5. -/
theorem total_misses_displaced_minimum :
    (scan hypotQ (particle_at 0 0) (axis_masses 3 2 1)).c = 2 ∧
    (scan hypotQ (particle_at 0 0) (axis_masses 3 2 1)).total = 0 ∧
    spec_total (dists hypotQ (particle_at 0 0) (axis_masses 3 2 1)) 2 = 5 := by
  refine ⟨?_, ?_, ?_⟩
  · simp [scan_c, dists_axis]
  · simp [scan_total, dists_axis]; norm_num
  · rw [spec_total_two]; simp [dists_axis]; norm_num

lemma floor_255_quarter : ⌊(255 / 4 : ℚ)⌋ = 63 := by
  rw [Int.floor_eq_iff]; norm_num

/-- C9 fails as stated: with the particle at the origin and the masses at
distances 1, 1 and 3 the total is 4 and the value of channel 2 is
`255 * (4 - 3) / 4 = 63.75`; the byte stored is 63, while the nearest integer
is 64. -/
theorem channel_rounding_counterexample :
    0 < (scan hypotQ (particle_at 0 0) (axis_masses 1 1 3)).total ∧
    (2 : Fin 3) ≠ (scan hypotQ (particle_at 0 0) (axis_masses 1 1 3)).c ∧
    channelValue (scan hypotQ (particle_at 0 0) (axis_masses 1 1 3)) 2 = some (255 / 4) ∧
    calc_weighted_closest hypotQ (particle_at 0 0) (axis_masses 1 1 3) 2 = some 63 ∧
    round (255 / 4 : ℚ) = 64 := by
  have hc : (scan hypotQ (particle_at 0 0) (axis_masses 1 1 3)).c = 0 := by
    simp [scan_c, dists_axis]
  have ht : (scan hypotQ (particle_at 0 0) (axis_masses 1 1 3)).total = 4 := by
    simp [scan_total, dists_axis]; norm_num
  have hv : channelValue (scan hypotQ (particle_at 0 0) (axis_masses 1 1 3)) 2
      = some (255 / 4) := by
    simp [channelValue, hc, ht, fdiv, scan_rgb, dists_axis]; norm_num
  refine ⟨by rw [ht]; norm_num, by rw [hc]; decide, hv, ?_, ?_⟩
  · simp only [calc_weighted_closest, hv, Option.map_some']
    rw [toByte_eq_floor _ (by norm_num) (by norm_num), floor_255_quarter]
    rfl
  · rw [round_eq, Int.floor_eq_iff]; norm_num

/-- C9, amended: for a positive total the channel of `c` is 255 and every
other channel `i` holds `255 * (total - d_i) / total` converted by the `(char)`
cast, which truncates toward zero and is kept modulo 256; when that quotient
lies in `[0, 255]` the byte is its floor, not the nearest integer. -/
theorem channel_truncation (hypot : ℚ → ℚ → ℚ) (p : Point) (masses : Masses)
    (hpos : 0 < (scan hypot p masses).total) :
    calc_weighted_closest hypot p masses (scan hypot p masses).c = some 255 ∧
    ∀ i, i ≠ (scan hypot p masses).c →
      calc_weighted_closest hypot p masses i
        = some ((truncate (255 * ((scan hypot p masses).total - dists hypot p masses i)
            / (scan hypot p masses).total) % 256).toNat) ∧
      (0 ≤ 255 * ((scan hypot p masses).total - dists hypot p masses i)
            / (scan hypot p masses).total →
        255 * ((scan hypot p masses).total - dists hypot p masses i)
            / (scan hypot p masses).total ≤ 255 →
        calc_weighted_closest hypot p masses i
          = some ⌊255 * ((scan hypot p masses).total - dists hypot p masses i)
              / (scan hypot p masses).total⌋.toNat) := by
  refine ⟨calc_weighted_closest_c hypot p masses, fun i hi => ?_⟩
  have hv : calc_weighted_closest hypot p masses i
      = some (toByte (255 * ((scan hypot p masses).total - dists hypot p masses i)
          / (scan hypot p masses).total)) := by
    simp [calc_weighted_closest, channelValue, hi, fdiv, hpos.ne', scan_rgb]
  refine ⟨hv, fun h0 h1 => ?_⟩
  rw [hv, toByte_eq_floor _ h0 (by linarith)]

/-- C9, amended, on an instance: masses at distances 1, 1 and 3, channel 2 is 63. -/
theorem channel_truncation_witness :
    0 < (scan hypotQ (particle_at 0 0) (axis_masses 1 1 3)).total ∧
    calc_weighted_closest hypotQ (particle_at 0 0) (axis_masses 1 1 3) 2
      = some ⌊(255 / 4 : ℚ)⌋.toNat := by
  have hc : (scan hypotQ (particle_at 0 0) (axis_masses 1 1 3)).c = 0 := by
    simp [scan_c, dists_axis]
  have ht : (scan hypotQ (particle_at 0 0) (axis_masses 1 1 3)).total = 4 := by
    simp [scan_total, dists_axis]; norm_num
  have hpos : 0 < (scan hypotQ (particle_at 0 0) (axis_masses 1 1 3)).total := by
    rw [ht]; norm_num
  have h := (channel_truncation hypotQ (particle_at 0 0) (axis_masses 1 1 3) hpos).2 2
    (by rw [hc]; decide)
  have hq : 255 * ((scan hypotQ (particle_at 0 0) (axis_masses 1 1 3)).total
      - dists hypotQ (particle_at 0 0) (axis_masses 1 1 3) 2)
      / (scan hypotQ (particle_at 0 0) (axis_masses 1 1 3)).total = 255 / 4 := by
    rw [ht, dists_axis]; norm_num
  rw [hq] at h
  exact ⟨hpos, h.2 (by norm_num) (by norm_num)⟩


/-! ## The integration step -/

lemma accumulate_eq (gravity x y : ℚ) (masses : List Mass) (acc : ℚ × ℚ) :
    accumulate gravity x y masses acc =
      (acc.1 + (masses.map (fun m => (massTerm gravity x y m).1)).sum,
       acc.2 + (masses.map (fun m => (massTerm gravity x y m).2)).sum) := by
  unfold accumulate
  induction masses generalizing acc with
  | nil => simp
  | cons m ms ih =>
    rw [List.foldl_cons, ih]
    simp [add_assoc]

lemma forceDenom_pos (x y : ℚ) (m : Mass) : 0 < forceDenom x y m := by
  simp only [forceDenom]
  nlinarith [mul_self_nonneg (m.1 - x), mul_self_nonneg (m.2 - y)]

/-- C4: one call of `Point::update` moves the position with the old velocity,
the velocity with the old acceleration, and recomputes the acceleration from
the moved position as the sum over the masses of
`(m.x - x') * gravity / ((m.x - x')^2 + (m.y - y')^2 + 5)`, and of the same
with `m.y - y'` as the factor. -/
theorem update_integration_order (dt gravity : ℚ) (masses : List Mass) (p : Point) :
    (Point.update dt gravity masses p).x = p.x + p.xv * dt ∧
    (Point.update dt gravity masses p).y = p.y + p.yv * dt ∧
    (Point.update dt gravity masses p).xv = p.xv + p.xa * dt ∧
    (Point.update dt gravity masses p).yv = p.yv + p.ya * dt ∧
    (Point.update dt gravity masses p).xa =
      (masses.map (fun m =>
        (m.1 - (p.x + p.xv * dt)) * gravity /
          ((m.1 - (p.x + p.xv * dt)) ^ 2 + (m.2 - (p.y + p.yv * dt)) ^ 2 + 5))).sum ∧
    (Point.update dt gravity masses p).ya =
      (masses.map (fun m =>
        (m.2 - (p.y + p.yv * dt)) * gravity /
          ((m.1 - (p.x + p.xv * dt)) ^ 2 + (m.2 - (p.y + p.yv * dt)) ^ 2 + 5))).sum := by
  refine ⟨rfl, rfl, rfl, rfl, ?_, ?_⟩
  · simp only [Point.update, accumulate_eq, zero_add]
    congr 1
    apply List.map_congr_left
    intro m _
    simp only [massTerm, forceDenom]
    rw [mul_div_assoc, pow_two, pow_two]
  · simp only [Point.update, accumulate_eq, zero_add]
    congr 1
    apply List.map_congr_left
    intro m _
    simp only [massTerm, forceDenom]
    rw [mul_div_assoc, pow_two, pow_two]

/-- C7 fails as stated: a particle at rest on mass 0 at the origin, with mass 1
at `(1, 0)` and `gravity = 30`.  After `Point::update` the particle is still on
mass 0, whose contribution to the acceleration is `(0, 0)`, while mass 1
contributes `(5, 0)`: the mass under the particle does not dominate. -/
theorem softening_dominance_counterexample :
    ((Point.update (1 / 10) 30 (axis_masses 0 1 2).rows (particle_at 0 0)).x,
      (Point.update (1 / 10) 30 (axis_masses 0 1 2).rows (particle_at 0 0)).y)
        = axis_masses 0 1 2 0 ∧
    massTerm 30 0 0 (axis_masses 0 1 2 0) = (0, 0) ∧
    massTerm 30 0 0 (axis_masses 0 1 2 1) = (5, 0) ∧
    magSq (massTerm 30 0 0 (axis_masses 0 1 2 0))
      < magSq (massTerm 30 0 0 (axis_masses 0 1 2 1)) := by
  refine ⟨?_, ?_, ?_, ?_⟩
  · simp [Point.update, particle_at, axis_masses]
  · simp [massTerm, axis_masses]
  · simp [massTerm, forceDenom, axis_masses]; norm_num
  · simp [massTerm, forceDenom, axis_masses, magSq]; norm_num

/-- C7, amended: in `Point::update` the denominator `d2 + 5` of every mass is
positive, so no division by zero occurs; for a mass `m` at the particle's
moved position the denominator is exactly 5 and the contribution of `m` to the
acceleration is exactly `(0, 0)`, so its magnitude is at most that of the
contribution of every other mass. -/
theorem softening_at_mass (dt gravity : ℚ) (masses : List Mass) (p : Point) (m : Mass)
    (hat : ((Point.update dt gravity masses p).x, (Point.update dt gravity masses p).y) = m) :
    (∀ m' : Mass, 0 < forceDenom (Point.update dt gravity masses p).x
        (Point.update dt gravity masses p).y m') ∧
    forceDenom (Point.update dt gravity masses p).x (Point.update dt gravity masses p).y m = 5 ∧
    massTerm gravity (Point.update dt gravity masses p).x
        (Point.update dt gravity masses p).y m = (0, 0) ∧
    (∀ m' : Mass,
      magSq (massTerm gravity (Point.update dt gravity masses p).x
          (Point.update dt gravity masses p).y m)
        ≤ magSq (massTerm gravity (Point.update dt gravity masses p).x
          (Point.update dt gravity masses p).y m')) ∧
    (Point.update dt gravity masses p).xa
      = (masses.map (fun m' => (massTerm gravity (Point.update dt gravity masses p).x
          (Point.update dt gravity masses p).y m').1)).sum ∧
    (Point.update dt gravity masses p).ya
      = (masses.map (fun m' => (massTerm gravity (Point.update dt gravity masses p).x
          (Point.update dt gravity masses p).y m').2)).sum := by
  have hx : m.1 = (Point.update dt gravity masses p).x := by rw [← hat]
  have hy : m.2 = (Point.update dt gravity masses p).y := by rw [← hat]
  have hterm : massTerm gravity (Point.update dt gravity masses p).x
      (Point.update dt gravity masses p).y m = (0, 0) := by
    simp [massTerm, hx, hy]
  refine ⟨fun m' => forceDenom_pos _ _ m', ?_, hterm, fun m' => ?_, ?_, ?_⟩
  · simp [forceDenom, hx, hy]
  · rw [hterm]
    simp only [magSq]
    nlinarith [mul_self_nonneg (massTerm gravity (Point.update dt gravity masses p).x
        (Point.update dt gravity masses p).y m').1,
      mul_self_nonneg (massTerm gravity (Point.update dt gravity masses p).x
        (Point.update dt gravity masses p).y m').2]
  · simp [Point.update, accumulate_eq]
  · simp [Point.update, accumulate_eq]

/-- C7, amended, on an instance: a particle at rest on mass 0 at the origin. -/
theorem softening_at_mass_witness :
    forceDenom (Point.update (1 / 10) 30 (axis_masses 0 1 2).rows (particle_at 0 0)).x
      (Point.update (1 / 10) 30 (axis_masses 0 1 2).rows (particle_at 0 0)).y (0, 0) = 5 ∧
    massTerm 30 (Point.update (1 / 10) 30 (axis_masses 0 1 2).rows (particle_at 0 0)).x
      (Point.update (1 / 10) 30 (axis_masses 0 1 2).rows (particle_at 0 0)).y (0, 0) = (0, 0) := by
  have h := softening_at_mass (1 / 10) 30 (axis_masses 0 1 2).rows (particle_at 0 0) (0, 0)
    (by simp [Point.update, particle_at])
  exact ⟨h.2.1, h.2.2.1⟩


/-! ## The layouts -/

/-- C8 fails as stated: for `width = height = 500` and `triangle_height = -3`
the vertical extent of the TRIANGLE layout is 3, not -3. -/
theorem triangle_extent_counterexample :
    vertical_extent (init_masses .TRIANGLE 500 500 (-3) (fun _ => 0) (axis_masses 0 0 0)) = 3 ∧
    vertical_extent (init_masses .TRIANGLE 500 500 (-3) (fun _ => 0) (axis_masses 0 0 0))
      ≠ ((-3 : Int) : ℚ) := by
  have h : vertical_extent
      (init_masses .TRIANGLE 500 500 (-3) (fun _ => 0) (axis_masses 0 0 0)) = 3 := by
    simp only [vertical_extent, init_masses]
    norm_num
  refine ⟨h, ?_⟩
  rw [h]; norm_num

/-- C8, amended: `init_masses(TRIANGLE)` sets the masses to
`(w/2, h/2 - 2s/3)`, `(w/2 - s/2, h/2 + s/3)` and `(w/2 + s/2, h/2 + s/3)`;
their centroid is `(w/2, h/2)`, their vertical extent is `|s|`, which is `s`
when `s ≥ 0`, the two sides from the apex are equally long, and the result depends
on nothing but `(w, h, s)`. -/
theorem triangle_layout (width height s : Int) (draw : Fin 6 → Int) (masses : Masses) :
    init_masses .TRIANGLE width height s draw masses 0
      = ((width : ℚ) / 2, (height : ℚ) / 2 - 2 * (s : ℚ) / 3) ∧
    init_masses .TRIANGLE width height s draw masses 1
      = ((width : ℚ) / 2 - (s : ℚ) / 2, (height : ℚ) / 2 + (s : ℚ) / 3) ∧
    init_masses .TRIANGLE width height s draw masses 2
      = ((width : ℚ) / 2 + (s : ℚ) / 2, (height : ℚ) / 2 + (s : ℚ) / 3) ∧
    ((init_masses .TRIANGLE width height s draw masses 0).1
      + (init_masses .TRIANGLE width height s draw masses 1).1
      + (init_masses .TRIANGLE width height s draw masses 2).1) / 3 = (width : ℚ) / 2 ∧
    ((init_masses .TRIANGLE width height s draw masses 0).2
      + (init_masses .TRIANGLE width height s draw masses 1).2
      + (init_masses .TRIANGLE width height s draw masses 2).2) / 3 = (height : ℚ) / 2 ∧
    vertical_extent (init_masses .TRIANGLE width height s draw masses) = |(s : ℚ)| ∧
    sqDist (init_masses .TRIANGLE width height s draw masses 0)
        (init_masses .TRIANGLE width height s draw masses 1)
      = sqDist (init_masses .TRIANGLE width height s draw masses 0)
        (init_masses .TRIANGLE width height s draw masses 2) ∧
    ∀ (draw' : Fin 6 → Int) (masses' : Masses),
      init_masses .TRIANGLE width height s draw' masses'
        = init_masses .TRIANGLE width height s draw masses := by
  have hext : vertical_extent (init_masses .TRIANGLE width height s draw masses)
      = |(s : ℚ)| := by
    simp only [vertical_extent, init_masses]
    rcases le_total 0 (s : ℚ) with hs | hs
    · have hab : (height : ℚ) / 2 - 2 * ((s : ℚ) / 3) ≤ (height : ℚ) / 2 + (s : ℚ) / 3 := by
        linarith
      rw [abs_of_nonneg hs, max_eq_right hab, max_self, min_eq_left hab, min_eq_left hab]
      ring
    · have hba : (height : ℚ) / 2 + (s : ℚ) / 3 ≤ (height : ℚ) / 2 - 2 * ((s : ℚ) / 3) := by
        linarith
      rw [abs_of_nonpos hs, max_eq_left hba, max_eq_left hba, min_eq_right hba, min_self]
      ring
  refine ⟨?_, rfl, rfl, ?_, ?_, hext, ?_, fun _ _ => rfl⟩
  · simp only [init_masses]; congr 1; ring
  · simp only [init_masses]; ring
  · simp only [init_masses]; ring
  · simp only [init_masses, sqDist]; ring


/-! ## The frame renderer: closed form -/

lemma render_cell_p (hypot : ℚ → ℚ → ℚ) (g : Globals) (steps : Int) (y x : Nat)
    (r : RenderState) (y' x' : Nat) :
    (render_cell hypot g steps y x r).p y' x'
      = if y' = y ∧ x' = x then
          (Point.update g.dt g.gravity g.masses.rows)^[steps.toNat] (r.p y x)
        else r.p y' x' := by
  simp only [render_cell]
  by_cases hy : y' = y
  · subst hy
    by_cases hx : x' = x
    · subst hx; simp
    · simp [Function.update_apply, hx]
  · simp [Function.update_apply, hy]

lemma render_cell_w (hypot : ℚ → ℚ → ℚ) (g : Globals) (steps : Int) (y x : Nat)
    (r : RenderState) : (render_cell hypot g steps y x r).img.w = r.img.w := by
  simp only [render_cell, Image.draw_point]
  split_ifs <;> rfl

lemma render_cell_h (hypot : ℚ → ℚ → ℚ) (g : Globals) (steps : Int) (y x : Nat)
    (r : RenderState) : (render_cell hypot g steps y x r).img.h = r.img.h := by
  simp only [render_cell, Image.draw_point]
  split_ifs <;> rfl

lemma render_cell_pix (hypot : ℚ → ℚ → ℚ) (g : Globals) (steps : Int) (y x : Nat)
    (r : RenderState) (x' y' : Nat) :
    (render_cell hypot g steps y x r).img.pix x' y'
      = if y' = y ∧ x' = x ∧ x' < r.img.w ∧ y' < r.img.h then
          calc_weighted_closest hypot
            ((Point.update g.dt g.gravity g.masses.rows)^[steps.toNat] (r.p y x)) g.masses
        else r.img.pix x' y' := by
  simp only [render_cell, Image.draw_point]
  by_cases hin : x < r.img.w ∧ y < r.img.h
  · rw [if_pos hin]
    simp only [Function.update_apply]
    by_cases hx : x' = x
    · subst hx
      by_cases hy : y' = y
      · subst hy; simp [hin.1, hin.2]
      · simp [hy]
    · simp [hx]
  · rw [if_neg hin, if_neg]
    rintro ⟨rfl, rfl, h⟩
    exact hin h

lemma render_cell_color (hypot : ℚ → ℚ → ℚ) (g : Globals) (steps : Int) (y x : Nat)
    (r : RenderState) :
    (render_cell hypot g steps y x r).color
      = calc_weighted_closest hypot
          ((Point.update g.dt g.gravity g.masses.rows)^[steps.toNat] (r.p y x)) g.masses := rfl

/-- What the loop over `x < W` in row `y` leaves in memory. -/
lemma render_row_fold (hypot : ℚ → ℚ → ℚ) (g : Globals) (steps : Int) (y : Nat)
    (s : RenderState) (W : Nat) :
    (∀ y' x', ((List.range W).foldl (fun s x => render_cell hypot g steps y x s) s).p y' x'
      = if y' = y ∧ x' < W then
          (Point.update g.dt g.gravity g.masses.rows)^[steps.toNat] (s.p y x')
        else s.p y' x') ∧
    ((List.range W).foldl (fun s x => render_cell hypot g steps y x s) s).img.w = s.img.w ∧
    ((List.range W).foldl (fun s x => render_cell hypot g steps y x s) s).img.h = s.img.h ∧
    (∀ x' y',
      ((List.range W).foldl (fun s x => render_cell hypot g steps y x s) s).img.pix x' y'
      = if y' = y ∧ x' < W ∧ x' < s.img.w ∧ y' < s.img.h then
          calc_weighted_closest hypot
            ((Point.update g.dt g.gravity g.masses.rows)^[steps.toNat] (s.p y x')) g.masses
        else s.img.pix x' y') ∧
    ((List.range W).foldl (fun s x => render_cell hypot g steps y x s) s).color
      = if W = 0 then s.color
        else calc_weighted_closest hypot
          ((Point.update g.dt g.gravity g.masses.rows)^[steps.toNat] (s.p y (W - 1))) g.masses := by
  induction W with
  | zero => simp
  | succ W ih =>
    rw [List.range_succ, List.foldl_append, List.foldl_cons, List.foldl_nil]
    generalize (List.range W).foldl (fun s x => render_cell hypot g steps y x s) s = r at ih ⊢
    obtain ⟨ihp, ihw, ihh, ihpix, -⟩ := ih
    have hcur : r.p y W = s.p y W := by
      rw [ihp]; simp
    refine ⟨?_, ?_, ?_, ?_, ?_⟩
    · intro y' x'
      rw [render_cell_p, hcur, ihp]
      by_cases hy : y' = y
      · by_cases hx : x' = W
        · subst hx; simp [hy]
        · have h1 : x' < W + 1 ↔ x' < W := by omega
          simp [hy, hx, h1]
      · simp [hy]
    · rw [render_cell_w, ihw]
    · rw [render_cell_h, ihh]
    · intro x' y'
      rw [render_cell_pix, hcur, ihpix, ihw, ihh]
      by_cases hy : y' = y
      · by_cases hx : x' = W
        · subst hx; simp [hy]
        · have h1 : x' < W + 1 ↔ x' < W := by omega
          simp [hy, hx, h1]
      · simp [hy]
    · rw [render_cell_color, hcur]; simp


/-- What `render_frame`, cut after `H` rows, leaves in memory. -/
lemma render_rows_fold (hypot : ℚ → ℚ → ℚ) (g : Globals) (steps : Int)
    (s : RenderState) (H : Nat) :
    (∀ y' x', ((List.range H).foldl (fun s y => render_row hypot g steps y s) s).p y' x'
      = if y' < H ∧ x' < g.width.toNat then
          (Point.update g.dt g.gravity g.masses.rows)^[steps.toNat] (s.p y' x')
        else s.p y' x') ∧
    ((List.range H).foldl (fun s y => render_row hypot g steps y s) s).img.w = s.img.w ∧
    ((List.range H).foldl (fun s y => render_row hypot g steps y s) s).img.h = s.img.h ∧
    (∀ x' y',
      ((List.range H).foldl (fun s y => render_row hypot g steps y s) s).img.pix x' y'
      = if y' < H ∧ x' < g.width.toNat ∧ x' < s.img.w ∧ y' < s.img.h then
          calc_weighted_closest hypot
            ((Point.update g.dt g.gravity g.masses.rows)^[steps.toNat] (s.p y' x')) g.masses
        else s.img.pix x' y') ∧
    ((List.range H).foldl (fun s y => render_row hypot g steps y s) s).color
      = if H = 0 ∨ g.width.toNat = 0 then s.color
        else calc_weighted_closest hypot
          ((Point.update g.dt g.gravity g.masses.rows)^[steps.toNat]
            (s.p (H - 1) (g.width.toNat - 1))) g.masses := by
  induction H with
  | zero => simp
  | succ H ih =>
    rw [List.range_succ, List.foldl_append, List.foldl_cons, List.foldl_nil]
    generalize (List.range H).foldl (fun s y => render_row hypot g steps y s) s = r at ih ⊢
    obtain ⟨ihp, ihw, ihh, ihpix, ihc⟩ := ih
    obtain ⟨rp, rw', rh, rpix, rc⟩ := render_row_fold hypot g steps H r g.width.toNat
    have hcur : ∀ x, r.p H x = s.p H x := by
      intro x; rw [ihp]; simp
    refine ⟨?_, ?_, ?_, ?_, ?_⟩
    · intro y' x'
      show (render_row hypot g steps H r).p y' x' = _
      unfold render_row
      rw [rp, hcur, ihp]
      by_cases hy : y' = H
      · subst hy; simp
      · have h1 : y' < H + 1 ↔ y' < H := by omega
        simp [hy, h1]
    · show (render_row hypot g steps H r).img.w = _
      unfold render_row
      rw [rw', ihw]
    · show (render_row hypot g steps H r).img.h = _
      unfold render_row
      rw [rh, ihh]
    · intro x' y'
      show (render_row hypot g steps H r).img.pix x' y' = _
      unfold render_row
      rw [rpix, hcur, ihpix, ihw, ihh]
      by_cases hy : y' = H
      · subst hy; simp
      · have h1 : y' < H + 1 ↔ y' < H := by omega
        simp [hy, h1]
    · show (render_row hypot g steps H r).color = _
      unfold render_row
      rw [rc, hcur, ihc]
      by_cases hW : g.width.toNat = 0
      · simp [hW]
      · simp [hW]

/-- Two passes of `render_frame` amount to one pass with the sum of the steps. -/
lemma render_frame_comp (hypot : ℚ → ℚ → ℚ) (g : Globals) (K S : Int) (s : RenderState)
    (hK : 0 ≤ K) (hS : 0 ≤ S) :
    render_frame hypot g S (render_frame hypot g K s) = render_frame hypot g (K + S) s := by
  have hKS : (K + S).toNat = S.toNat + K.toNat := by omega
  obtain ⟨p1, w1, h1, pix1, c1⟩ := render_rows_fold hypot g K s g.height.toNat
  obtain ⟨p2, w2, h2, pix2, c2⟩ :=
    render_rows_fold hypot g S (render_frame hypot g K s) g.height.toNat
  obtain ⟨p3, w3, h3, pix3, c3⟩ := render_rows_fold hypot g (K + S) s g.height.toNat
  apply RenderState.ext
  · funext y x
    show (render_frame hypot g S (render_frame hypot g K s)).p y x = _
    unfold render_frame at *
    rw [p2, p1, p3, hKS, Function.iterate_add_apply]
    split_ifs <;> rfl
  · apply Image.ext
    · unfold render_frame at *
      rw [w2, w1, w3]
    · unfold render_frame at *
      rw [h2, h1, h3]
    · funext x y
      show (render_frame hypot g S (render_frame hypot g K s)).img.pix x y = _
      unfold render_frame at *
      rw [pix2, p1, pix1, pix3, w1, h1, hKS, Function.iterate_add_apply]
      split_ifs <;> first | rfl | (exfalso; tauto)
  · show (render_frame hypot g S (render_frame hypot g K s)).color = _
    unfold render_frame at *
    rw [c2, p1, c1, c3, hKS, Function.iterate_add_apply]
    by_cases hz : g.height.toNat = 0 ∨ g.width.toNat = 0
    · rw [if_pos hz, if_pos hz, if_pos hz]
    · rw [if_neg hz, if_neg hz, if_pos]
      push_neg at hz
      omega

/-! ## Progressive rendering -/

/-- C5: for step counts `K ≥ 0` and `S ≥ 0`, `render_frame` with `K` steps
followed by `render_frame` with `S` steps leaves the same memory, every
particle, every pixel of the buffer and the global `color`, as one
`render_frame` with `K + S` steps from the same start. -/
theorem progressive_consistency (hypot : ℚ → ℚ → ℚ) (g : Globals) (K S : Int)
    (s : RenderState) (hK : 0 ≤ K) (hS : 0 ≤ S) :
    (render_frame hypot g S (render_frame hypot g K s)).p = (render_frame hypot g (K + S) s).p ∧
    (render_frame hypot g S (render_frame hypot g K s)).img
      = (render_frame hypot g (K + S) s).img ∧
    render_frame hypot g S (render_frame hypot g K s) = render_frame hypot g (K + S) s := by
  rw [render_frame_comp hypot g K S s hK hS]
  exact ⟨rfl, rfl, rfl⟩


/-- C5, on an instance: one step then two steps on the 2 by 2 sample grid. -/
theorem progressive_consistency_witness :
    render_frame hypotQ sample_globals 2 (render_frame hypotQ sample_globals 1 (initial_state 2 2))
      = render_frame hypotQ sample_globals (1 + 2) (initial_state 2 2) :=
  (progressive_consistency hypotQ sample_globals 1 2 (initial_state 2 2)
    (by decide) (by decide)).2.2

/-- After `render_frame` with `n ≥ 0` steps every particle of the grid has
received exactly `n` updates. -/
lemma render_frame_p (hypot : ℚ → ℚ → ℚ) (g : Globals) (n : Int) (s : RenderState)
    (y x : Nat) (hy : y < g.height.toNat) (hx : x < g.width.toNat) :
    (render_frame hypot g n s).p y x
      = (Point.update g.dt g.gravity g.masses.rows)^[n.toNat] (s.p y x) := by
  unfold render_frame
  rw [(render_rows_fold hypot g n s g.height.toNat).1, if_pos ⟨hy, hx⟩]

/-! ## The driver -/

/-- The buffers the bounded frame loop emits when the window stays open: round
`k` emits the buffer of `c + (k + 1) * step` cumulative steps. -/
lemma frame_loop_emitted (hypot : ℚ → ℚ → ℚ) (g : Globals) (step : Int) (hstep : 0 ≤ step)
    (s : RenderState) (n : Nat) :
    ∀ (i : Nat) (c : Int) (out : List (Nat × Image)), 0 ≤ c →
      (frame_loop hypot g step (fun _ => false) n i (render_frame hypot g c s) out).emitted
        = out ++ (List.range n).map
            (fun k => (i + k, (render_frame hypot g (c + ((k : Int) + 1) * step) s).img)) ∧
      (frame_loop hypot g step (fun _ => false) n i (render_frame hypot g c s) out).outcome
        = .complete := by
  induction n with
  | zero => intro i c out _; simp [frame_loop]
  | succ n ih =>
    intro i c out hc
    have hcs : 0 ≤ c + step := add_nonneg hc hstep
    simp only [frame_loop, Bool.false_eq_true, if_false]
    rw [render_frame_comp hypot g c step s hc hstep]
    obtain ⟨h1, h2⟩ := ih (i + 1) (c + step) (out ++ [(i, (render_frame hypot g (c + step) s).img)]) hcs
    refine ⟨?_, h2⟩
    rw [h1, List.range_succ_eq_map, List.map_cons, List.map_map, List.append_assoc]
    have key : ∀ k : Nat,
        (i + 1 + k, (render_frame hypot g (c + step + ((k : Int) + 1) * step) s).img)
          = (i + (k + 1), (render_frame hypot g (c + (((k + 1 : Nat) : Int) + 1) * step) s).img) := by
      intro k
      have e : c + step + ((k : Int) + 1) * step = c + (((k + 1 : Nat) : Int) + 1) * step := by
        push_cast; ring
      rw [e, Nat.add_right_comm, Nat.add_assoc]
    simp only [List.singleton_append, Nat.add_zero, Nat.cast_zero, zero_add, one_mul, key]
    rfl

/-- The buffers the driver emits for `frames ≥ 1` when the window stays open:
exactly `frames` buffers, the `k`-th of `iterations + (k + 1) * step` steps. -/
lemma driver_emitted (hypot : ℚ → ℚ → ℚ) (g : Globals) (iterations step frames : Int)
    (hi : 0 ≤ iterations) (hstep : 0 ≤ step) (hf : 1 ≤ frames) (fuel : Nat) (s : RenderState) :
    (driver hypot g iterations step frames (fun _ => false) fuel s).emitted
      = (List.range frames.toNat).map
          (fun k : Nat =>
            (k, (render_frame hypot g (iterations + ((k : Int) + 1) * step) s).img)) := by
  have hne : frames ≠ 0 := by omega
  simp only [driver, hne, if_false]
  rw [(frame_loop_emitted hypot g step hstep s frames.toNat 0 iterations [] hi).1]
  simp

/-- C6: with `frames = 3`, `step = 10`, `iterations = 100` and a window that is
never closed, the driver emits exactly three buffers and completes; they are
the buffers of 110, 120 and 130 cumulative steps from the initial grid, where
`render_frame` with `n` steps applies exactly `n` updates to every particle. -/
theorem driver_three_frames (hypot : ℚ → ℚ → ℚ) (g : Globals) (fuel : Nat)
    (s : RenderState) :
    (driver hypot g 100 10 3 (fun _ => false) fuel s).emitted
      = [(0, (render_frame hypot g 110 s).img), (1, (render_frame hypot g 120 s).img),
          (2, (render_frame hypot g 130 s).img)] ∧
    (driver hypot g 100 10 3 (fun _ => false) fuel s).outcome = .complete ∧
    ∀ n y x : Nat, y < g.height.toNat → x < g.width.toNat →
      (render_frame hypot g (n : Int) s).p y x
        = (Point.update g.dt g.gravity g.masses.rows)^[n] (s.p y x) := by
  have h1 : render_frame hypot g 10 (render_frame hypot g 100 s) = render_frame hypot g 110 s :=
    render_frame_comp hypot g 100 10 s (by decide) (by decide)
  have h2 : render_frame hypot g 10 (render_frame hypot g 110 s) = render_frame hypot g 120 s :=
    render_frame_comp hypot g 110 10 s (by decide) (by decide)
  have h3 : render_frame hypot g 10 (render_frame hypot g 120 s) = render_frame hypot g 130 s :=
    render_frame_comp hypot g 120 10 s (by decide) (by decide)
  have h : driver hypot g 100 10 3 (fun _ => false) fuel s
      = frame_loop hypot g 10 (fun _ => false) 3 0 (render_frame hypot g 100 s) [] := by
    simp [driver]
  refine ⟨?_, ?_, ?_⟩
  · rw [h]; simp [frame_loop, h1, h2, h3]
  · rw [h]; simp [frame_loop]
  · intro n y x hy hx
    rw [render_frame_p hypot g _ s y x hy hx, Int.toNat_ofNat]

end GravitySnapshot
